import Mathlib

/-!
Shallow embedding of `src/redux-query-sync.js` (ReduxQuerySync): bidirectional
synchronisation between a Redux store and the location's query parameters.

Modelling conventions:
* JavaScript values flowing between the query string and the store are modelled
  by `JSValue` (undefined, strings, integer numbers, arrays).  Strict equality
  `===` is `jsEq`; two distinct array literals are never `===` in JavaScript
  (reference equality), so `jsEq` is `false` on arrays.
* The `URLSearchParams` object is modelled as an ordered list of key/value
  string pairs.  Serialisation escapes the three structural characters
  `%`, `&`, `=` (the real implementation applies full form-url-encoding; only
  the characters that affect the structure of the query string matter here).
  The `+`/space convention and multi-byte percent escapes are not modelled.
* Mutable engine state (the two guard flags, `lastQueryValues`, the store
  state and the location) is threaded explicitly through a `World` record.
  A raised JavaScript exception is modelled as an `Option String` error
  component returned next to the mutated world: mutations performed before
  the throw persist, the rest of the handler is skipped.
-/

inductive JSValue where
  | undef
  | str (s : String)
  | num (n : Int)
  | arr (elems : List JSValue)

/-- JavaScript strict equality `===` on the modelled values.  Arrays compare by
reference, so two array values built independently are never `===`; every
cross-type comparison is `false`. -/
def jsEq : JSValue → JSValue → Bool
  | .undef, .undef => true
  | .str a, .str b => a == b
  | .num a, .num b => a == b
  | _, _ => false

/-- String conversion of one array element inside `Array.prototype.toString`:
`undefined` becomes the empty string.  Nested arrays are not modelled further
(no configuration in the claims nests arrays). -/
def jsElemString : JSValue → String
  | .undef => ""
  | .str s => s
  | .num n => toString n
  | .arr _ => ""

def commaJoin : List String → String
  | [] => ""
  | [s] => s
  | s :: rest => s ++ "," ++ commaJoin rest

/-- JavaScript template-literal string coercion, the default `valueToString`
of the source (`v => ` followed by `${v}`). -/
def jsToString : JSValue → String
  | .undef => "undefined"
  | .str s => s
  | .num n => toString n
  | .arr xs => commaJoin (xs.map jsElemString)

/-! ### Query-string parsing and serialisation (the `URLSearchParams` model) -/

/-- Escape the structural characters of a query string. -/
def encodeChar (c : Char) : List Char :=
  if c = '%' then ['%', '2', '5']
  else if c = '&' then ['%', '2', '6']
  else if c = '=' then ['%', '3', 'D']
  else [c]

def encodeChars : List Char → List Char
  | [] => []
  | c :: rest => encodeChar c ++ encodeChars rest

def decodeChars : List Char → List Char
  | [] => []
  | '%' :: '2' :: '5' :: rest => '%' :: decodeChars rest
  | '%' :: '2' :: '6' :: rest => '&' :: decodeChars rest
  | '%' :: '3' :: 'D' :: rest => '=' :: decodeChars rest
  | c :: rest => c :: decodeChars rest

/-- Split a query-string body on `&`. -/
def splitOnAmp : List Char → List (List Char)
  | [] => [[]]
  | c :: rest =>
    if c = '&' then [] :: splitOnAmp rest
    else
      match splitOnAmp rest with
      | [] => [[c]]
      | piece :: more => (c :: piece) :: more

/-- Split one `key=value` piece at the first `=`; a piece without `=` is a key
with the empty value, as in `URLSearchParams`. -/
def splitFirstEq : List Char → List Char × List Char
  | [] => ([], [])
  | c :: rest =>
    if c = '=' then ([], rest)
    else
      let p := splitFirstEq rest
      (c :: p.1, p.2)

def parsePiece (cs : List Char) : List Char × List Char :=
  let p := splitFirstEq cs
  (decodeChars p.1, decodeChars p.2)

def parseBody (cs : List Char) : List (List Char × List Char) :=
  ((splitOnAmp cs).filter (fun piece => piece ≠ [])).map parsePiece

def joinAmp : List (List Char) → List Char
  | [] => []
  | [p] => p
  | p :: q :: ps => p ++ '&' :: joinAmp (q :: ps)

def serializeChars (L : List (List Char × List Char)) : List Char :=
  joinAmp (L.map fun p => encodeChars p.1 ++ '=' :: encodeChars p.2)

def dropQuestion : List Char → List Char
  | '?' :: rest => rest
  | cs => cs

/-- Parse a `location.search` string (empty or starting with `?`) into the
ordered key/value pairs of `new URL('http://bogus' + search).searchParams`. -/
def parseSearch (s : String) : List (String × String) :=
  (parseBody (dropQuestion s.toList)).map fun p => (String.mk p.1, String.mk p.2)

/-- Serialisation of the pairs, `URLSearchParams.prototype.toString`. -/
def serializePairs (L : List (String × String)) : String :=
  String.mk (serializeChars (L.map fun p => (p.1.toList, p.2.toList)))

/-! ### Operations on the ordered pair list -/

/-- `URLSearchParams.get`: first value for the key, or null. -/
def getFirst : List (String × String) → String → Option String
  | [], _ => none
  | (k1, v) :: rest, k => if k1 = k then some v else getFirst rest k

/-- `URLSearchParams.getAll`: every value for the key, in order. -/
def valuesFor : List (String × String) → String → List String
  | [], _ => []
  | (k1, v) :: rest, k => if k1 = k then v :: valuesFor rest k else valuesFor rest k

/-- `URLSearchParams.delete`: remove every pair with the key. -/
def deleteParam : List (String × String) → String → List (String × String)
  | [], _ => []
  | (k1, v) :: rest, k =>
    if k1 = k then deleteParam rest k else (k1, v) :: deleteParam rest k

/-- `URLSearchParams.set`: overwrite the first occurrence in place and drop the
later ones, or append when the key is absent. -/
def setParam : List (String × String) → String → String → List (String × String)
  | [], k, v => [(k, v)]
  | (k1, v1) :: rest, k, v =>
    if k1 = k then (k, v) :: deleteParam rest k else (k1, v1) :: setParam rest k v

/-! ### The association holding `lastQueryValues` (a plain JS object) -/

/-- JS property read: `undefined` when the key is absent. -/
def getAssoc : List (String × JSValue) → String → JSValue
  | [], _ => .undef
  | (k1, v) :: rest, k => if k1 = k then v else getAssoc rest k

/-- JS property assignment: overwrite in place or append. -/
def setAssoc : List (String × JSValue) → String → JSValue → List (String × JSValue)
  | [], k, v => [(k, v)]
  | (k1, v1) :: rest, k, v =>
    if k1 = k then (k, v) :: rest else (k1, v1) :: setAssoc rest k v

/-! ### Engine configuration and mutable world -/

/-- One entry of `options.params` in `ReduxQuerySync`. -/
structure ParamConfig (σ α : Type) where
  selector : σ → JSValue
  action : JSValue → α
  defaultValue : JSValue := .undef
  valueToString : Option (JSValue → String) := none
  stringToValue : Option (String → JSValue) := none

/-- `valueToString` with its source default `v => ` `${v}`. -/
def valueToStringD (pc : ParamConfig σ α) (v : JSValue) : String :=
  match pc.valueToString with
  | some f => f v
  | none => jsToString v

/-- `stringToValue` with its source default `s => s`. -/
def stringToValueD (pc : ParamConfig σ α) (s : String) : JSValue :=
  match pc.stringToValue with
  | some f => f s
  | none => .str s

inductive InitialTruth where
  | location
  | store
deriving DecidableEq

structure SyncConfig (σ α : Type) where
  params : List (String × ParamConfig σ α)
  replaceState : Bool := false
  initialTruth : Option InitialTruth := none

structure Location where
  search : String
deriving DecidableEq

inductive NavMode where
  | push
  | replace
deriving DecidableEq

/-- The mutable state visible to the engine: the store state, the current
location, the two guard flags, the `lastQueryValues` cache (undefined until
first assigned) and a log of the navigation calls the engine performed. -/
structure World (σ : Type) where
  storeState : σ
  location : Location
  ignoreLocationUpdate : Bool
  ignoreStateUpdate : Bool
  lastQueryValues : Option (List (String × JSValue))
  navigations : List (NavMode × String)

def navMode (cfg : SyncConfig σ α) : NavMode :=
  if cfg.replaceState then .replace else .push

/-! ### The handlers, translated from the source -/

/-- Source `getQueryValues(location)`: for each configured parameter, the first
query value decoded with `stringToValue`, or `defaultValue` when absent. -/
def getQueryValues (params : List (String × ParamConfig σ α)) (loc : Location) :
    List (String × JSValue) :=
  let locationParams := parseSearch loc.search
  params.map fun p =>
    (p.1, match getFirst locationParams p.1 with
          | none => p.2.defaultValue
          | some s => stringToValueD p.2 s)

/-- One step of building `actionsToDispatch` in `handleLocationUpdate`: a
parameter contributes an action when the cache is uninitialised or its cached
value differs (`!==`) from the decoded one, and the selector's current value
also differs (`!==`) from the decoded one. -/
def locActionStep (state : σ) (lastQV : Option (List (String × JSValue)))
    (queryValues : List (String × JSValue)) (acc : List α)
    (p : String × ParamConfig σ α) : List α :=
  if (match lastQV with
      | none => true
      | some l => !(jsEq (getAssoc l p.1) (getAssoc queryValues p.1))) then
    if !(jsEq (p.2.selector state) (getAssoc queryValues p.1)) then
      acc ++ [p.2.action (getAssoc queryValues p.1)]
    else acc
  else acc

/-- The whole `actionsToDispatch` list built by `handleLocationUpdate`. -/
def computeActions (params : List (String × ParamConfig σ α)) (state : σ)
    (queryValues : List (String × JSValue))
    (lastQV : Option (List (String × JSValue))) : List α :=
  params.foldl (locActionStep state lastQV queryValues) []

/-- The per-parameter body of `handleStateUpdate`'s `forEach` acting on the
working copy of the query parameters: delete the key when the selected value
is `===` the default, otherwise set its encoded string. -/
def processStep (state : σ) (l : List (String × String))
    (p : String × ParamConfig σ α) : List (String × String) :=
  if jsEq (p.2.selector state) p.2.defaultValue then deleteParam l p.1
  else setParam l p.1 (valueToStringD p.2 (p.2.selector state))

/-- The whole `forEach` of `handleStateUpdate` over the working copy. -/
def processParams (params : List (String × ParamConfig σ α)) (state : σ)
    (l : List (String × String)) : List (String × String) :=
  params.foldl (processStep state) l

/-- The per-parameter cache writes of `handleStateUpdate`'s `forEach`:
`lastQueryValues[param] = value`. -/
def updateCache (params : List (String × ParamConfig σ α)) (state : σ)
    (qv : List (String × JSValue)) : List (String × JSValue) :=
  params.foldl (fun qv p => setAssoc qv p.1 (p.2.selector state)) qv

/-- Tail of `handleStateUpdate`: build the new search string, compare with
`location.search || '?'`, and navigate (guarded) only when they differ. -/
def stateUpdateNav (cfg : SyncConfig σ α) (w : World σ)
    (newPairs : List (String × String))
    (newCache : Option (List (String × JSValue))) : World σ :=
  let newSearch := "?" ++ serializePairs newPairs
  let oldSearch := if w.location.search = "" then "?" else w.location.search
  let w1 := { w with lastQueryValues := newCache }
  if newSearch = oldSearch then w1
  else
    { w1 with
      ignoreLocationUpdate := false
      location := ⟨newSearch⟩
      navigations := w1.navigations ++ [(navMode cfg, newSearch)] }

/-- Source `handleStateUpdate()`.  When `lastQueryValues` is still undefined
and at least one parameter is configured, the JS property write
`lastQueryValues[param] = value` raises a TypeError on the first iteration;
only the local working copy was touched, so the world is unchanged and the
exception propagates. -/
def handleStateUpdate (cfg : SyncConfig σ α) (w : World σ) :
    World σ × Option String :=
  if w.ignoreStateUpdate then (w, none)
  else
    let locationParams := parseSearch w.location.search
    match w.lastQueryValues with
    | none =>
      match cfg.params with
      | [] => (stateUpdateNav cfg w locationParams none, none)
      | _ :: _ => (w, some "TypeError: lastQueryValues is undefined")
    | some qv =>
      (stateUpdateNav cfg w
        (processParams cfg.params w.storeState locationParams)
        (some (updateCache cfg.params w.storeState qv)), none)

/-- The dispatch loop of `handleLocationUpdate`: each dispatch applies the
reducer (an exception aborts the loop and propagates, leaving earlier
mutations in place) and then synchronously notifies the store's subscriber,
`handleStateUpdate` — which the caller has guarded with `ignoreStateUpdate`. -/
def dispatchAll (cfg : SyncConfig σ α) (reducer : σ → α → Except String σ) :
    List α → World σ → World σ × Option String
  | [], w => (w, none)
  | a :: rest, w =>
    match reducer w.storeState a with
    | .error e => (w, some e)
    | .ok s1 =>
      let r := handleStateUpdate cfg { w with storeState := s1 }
      match r.2 with
      | some e => (r.1, some e)
      | none => dispatchAll cfg reducer rest r.1

/-- Source `handleLocationUpdate(location)` (the location argument is the
world's current location). -/
def handleLocationUpdate (cfg : SyncConfig σ α)
    (reducer : σ → α → Except String σ) (w : World σ) :
    World σ × Option String :=
  if w.ignoreLocationUpdate then (w, none)
  else
    let state := w.storeState
    let queryValues := getQueryValues cfg.params w.location
    let actions := computeActions cfg.params state queryValues w.lastQueryValues
    let w1 := { w with lastQueryValues := some queryValues, ignoreStateUpdate := true }
    let r := dispatchAll cfg reducer actions w1
    match r.2 with
    | some e => (r.1, some e)
    | none => ({ r.1 with ignoreStateUpdate := false }, none)

/-- Source `ReduxQuerySync(...)` after the subscriptions are installed: the
initial direction-of-truth resolution, starting from fresh guards, an
undefined cache and an empty navigation log. -/
def reduxQuerySyncInit (cfg : SyncConfig σ α)
    (reducer : σ → α → Except String σ) (storeState : σ) (loc : Location) :
    World σ × Option String :=
  let w0 : World σ :=
    { storeState := storeState
      location := loc
      ignoreLocationUpdate := false
      ignoreStateUpdate := false
      lastQueryValues := none
      navigations := [] }
  let r1 :=
    if cfg.initialTruth = some .location then handleLocationUpdate cfg reducer w0
    else ({ w0 with lastQueryValues := some (getQueryValues cfg.params w0.location) }, none)
  match r1.2 with
  | some e => (r1.1, some e)
  | none =>
    if cfg.initialTruth = some .store then handleStateUpdate cfg r1.1
    else (r1.1, none)

/-! ### Round-trip lemmas for the query-string codec -/

theorem decodeChars_encodeChars (cs : List Char) :
    decodeChars (encodeChars cs) = cs := by
  induction cs with
  | nil => rfl
  | cons c rest ih =>
    by_cases h1 : c = '%'
    · subst h1; simp [encodeChars, encodeChar, decodeChars, ih]
    · by_cases h2 : c = '&'
      · subst h2; simp [encodeChars, encodeChar, decodeChars, ih]
      · by_cases h3 : c = '='
        · subst h3; simp [encodeChars, encodeChar, decodeChars, ih]
        · simp only [encodeChars, encodeChar, if_neg h1, if_neg h2, if_neg h3,
            List.singleton_append]
          rw [decodeChars.eq_def]
          split
          · simp_all
          · simp_all
          · simp_all
          · simp_all
          · rename_i c1 rest1 heq
            rw [List.cons.injEq] at heq
            rw [← heq.1, ← heq.2, ih]

theorem amp_not_mem_encodeChars (cs : List Char) : '&' ∉ encodeChars cs := by
  induction cs with
  | nil => simp [encodeChars]
  | cons c rest ih =>
    simp only [encodeChars, List.mem_append, not_or]
    refine ⟨?_, ih⟩
    unfold encodeChar
    split
    · decide
    · split
      · decide
      · split
        · decide
        · rename_i hp ha he
          intro hmem
          have h := List.mem_singleton.mp hmem
          exact ha h.symm

theorem eq_not_mem_encodeChars (cs : List Char) : '=' ∉ encodeChars cs := by
  induction cs with
  | nil => simp [encodeChars]
  | cons c rest ih =>
    simp only [encodeChars, List.mem_append, not_or]
    refine ⟨?_, ih⟩
    unfold encodeChar
    split
    · decide
    · split
      · decide
      · split
        · decide
        · rename_i hp ha he
          intro hmem
          have h := List.mem_singleton.mp hmem
          exact he h.symm

theorem splitOnAmp_no_amp (cs : List Char) (h : '&' ∉ cs) :
    splitOnAmp cs = [cs] := by
  induction cs with
  | nil => rfl
  | cons c rest ih =>
    simp only [List.mem_cons, not_or] at h
    have hr := ih h.2
    have hc : ¬(c = '&') := fun he => h.1 he.symm
    simp only [splitOnAmp]
    rw [if_neg hc, hr]

theorem splitOnAmp_append (p cs : List Char) (h : '&' ∉ p) :
    splitOnAmp (p ++ '&' :: cs) = p :: splitOnAmp cs := by
  induction p with
  | nil => simp [splitOnAmp]
  | cons c rest ih =>
    simp only [List.mem_cons, not_or] at h
    have hr := ih h.2
    have hc : ¬(c = '&') := fun he => h.1 he.symm
    simp only [List.cons_append, splitOnAmp]
    simp only [List.append_eq]
    rw [if_neg hc, hr]

theorem splitFirstEq_append (a b : List Char) (h : '=' ∉ a) :
    splitFirstEq (a ++ '=' :: b) = (a, b) := by
  induction a with
  | nil => simp [splitFirstEq]
  | cons c rest ih =>
    simp only [List.mem_cons, not_or] at h
    have hc : ¬(c = '=') := fun he => h.1 he.symm
    simp only [List.cons_append, splitFirstEq]
    simp only [List.append_eq]
    rw [if_neg hc, ih h.2]

theorem serializePair_ne_nil (k v : List Char) :
    encodeChars k ++ '=' :: encodeChars v ≠ [] := by simp

theorem amp_not_mem_serializePair (k v : List Char) :
    '&' ∉ encodeChars k ++ '=' :: encodeChars v := by
  intro hmem
  rcases List.mem_append.mp hmem with h | h
  · exact amp_not_mem_encodeChars k h
  · rcases List.mem_cons.mp h with h | h
    · exact absurd h (by decide)
    · exact amp_not_mem_encodeChars v h

theorem parsePiece_serializePair (k v : List Char) :
    parsePiece (encodeChars k ++ '=' :: encodeChars v) = (k, v) := by
  simp only [parsePiece]
  rw [splitFirstEq_append _ _ (eq_not_mem_encodeChars k)]
  simp [decodeChars_encodeChars]

theorem parseBody_serializeChars (L : List (List Char × List Char)) :
    parseBody (serializeChars L) = L := by
  induction L with
  | nil => rfl
  | cons p rest ih =>
    obtain ⟨k, v⟩ := p
    cases rest with
    | nil =>
      simp only [serializeChars, List.map, joinAmp, parseBody]
      rw [splitOnAmp_no_amp _ (amp_not_mem_serializePair k v)]
      rw [List.filter_cons_of_pos (by simp), List.filter_nil]
      simp [parsePiece_serializePair]
    | cons q rest1 =>
      simp only [serializeChars, List.map, parseBody] at ih ⊢
      rw [joinAmp, splitOnAmp_append _ _ (amp_not_mem_serializePair k v)]
      rw [List.filter_cons_of_pos (by simp)]
      simp only [List.map, parsePiece_serializePair]
      rw [ih]

theorem string_toList_append (a b : String) :
    (a ++ b).toList = a.toList ++ b.toList := by
  cases a; cases b; rfl

theorem string_mk_toList (s : String) : String.mk s.toList = s := by
  cases s; rfl

/-- Parsing the search string the State Observer just produced recovers
exactly the pair list it serialised. -/
theorem parseSearch_roundtrip (L : List (String × String)) :
    parseSearch ("?" ++ serializePairs L) = L := by
  have h1 : ("?" ++ serializePairs L).toList
      = '?' :: (serializeChars (L.map fun p => (p.1.toList, p.2.toList))) := by
    rw [string_toList_append]
    rfl
  simp only [parseSearch, h1, dropQuestion, parseBody_serializeChars]
  rw [List.map_map]
  have h2 : ((fun p : List Char × List Char => (String.mk p.1, String.mk p.2)) ∘
      fun p : String × String => (p.1.toList, p.2.toList)) = id := by
    funext p
    simp [string_mk_toList]
  rw [h2, List.map_id]

/-! ### Per-key behaviour of delete/set and of the State Observer fold -/

theorem valuesFor_deleteParam_self (l : List (String × String)) (k : String) :
    valuesFor (deleteParam l k) k = [] := by
  induction l with
  | nil => rfl
  | cons p rest ih =>
    obtain ⟨k1, v⟩ := p
    by_cases h : k1 = k
    · simp [deleteParam, h, ih]
    · simp [deleteParam, valuesFor, h, ih]

theorem valuesFor_deleteParam_ne (l : List (String × String)) (k k1 : String)
    (h : k ≠ k1) : valuesFor (deleteParam l k1) k = valuesFor l k := by
  induction l with
  | nil => rfl
  | cons p rest ih =>
    obtain ⟨k2, v⟩ := p
    by_cases h2 : k2 = k1
    · subst h2
      simp [deleteParam, valuesFor, Ne.symm h, ih]
    · by_cases h3 : k2 = k
      · subst h3
        simp [deleteParam, valuesFor, h2, ih]
      · simp [deleteParam, valuesFor, h2, h3, ih]

theorem valuesFor_setParam_self (l : List (String × String)) (k v : String) :
    valuesFor (setParam l k v) k = [v] := by
  induction l with
  | nil => simp [setParam, valuesFor]
  | cons p rest ih =>
    obtain ⟨k1, v1⟩ := p
    by_cases h : k1 = k
    · simp [setParam, h, valuesFor, valuesFor_deleteParam_self]
    · simp [setParam, h, valuesFor, ih]

theorem valuesFor_setParam_ne (l : List (String × String)) (k k1 v : String)
    (h : k ≠ k1) : valuesFor (setParam l k1 v) k = valuesFor l k := by
  induction l with
  | nil => simp [setParam, valuesFor, Ne.symm h]
  | cons p rest ih =>
    obtain ⟨k2, v2⟩ := p
    by_cases h2 : k2 = k1
    · subst h2
      simp [setParam, valuesFor, Ne.symm h, valuesFor_deleteParam_ne _ _ _ h]
    · by_cases h3 : k2 = k
      · subst h3
        simp [setParam, valuesFor, h2, ih]
      · simp [setParam, valuesFor, h2, h3, ih]

theorem deleteParam_of_not_mem (l : List (String × String)) (k : String)
    (h : valuesFor l k = []) : deleteParam l k = l := by
  induction l with
  | nil => rfl
  | cons p rest ih =>
    obtain ⟨k1, v⟩ := p
    by_cases h1 : k1 = k
    · subst h1
      simp [valuesFor] at h
    · simp only [valuesFor, if_neg h1] at h
      simp [deleteParam, h1, ih h]

theorem setParam_of_single (l : List (String × String)) (k v : String)
    (h : valuesFor l k = [v]) : setParam l k v = l := by
  induction l with
  | nil => simp [valuesFor] at h
  | cons p rest ih =>
    obtain ⟨k1, v1⟩ := p
    by_cases h1 : k1 = k
    · subst h1
      simp only [valuesFor, if_pos rfl] at h
      injection h with hv hrest
      rw [setParam, if_pos rfl, hv, deleteParam_of_not_mem rest k1 hrest]
    · simp only [valuesFor, if_neg h1] at h
      simp [setParam, h1, ih h]

/-- Keys of a parameter collection. -/
def paramKeys (params : List (String × ParamConfig σ α)) : List String :=
  params.map Prod.fst

theorem paramKeys_cons (p : String × ParamConfig σ α)
    (rest : List (String × ParamConfig σ α)) :
    paramKeys (p :: rest) = p.1 :: paramKeys rest := rfl

theorem processStep_mk (state : σ) (l : List (String × String)) (name : String)
    (pc : ParamConfig σ α) :
    processStep state l (name, pc) =
      if jsEq (pc.selector state) pc.defaultValue then deleteParam l name
      else setParam l name (valueToStringD pc (pc.selector state)) := rfl

theorem valuesFor_processStep_ne (state : σ) (l : List (String × String))
    (p : String × ParamConfig σ α) (k : String) (h : k ≠ p.1) :
    valuesFor (processStep state l p) k = valuesFor l k := by
  unfold processStep
  split
  · exact valuesFor_deleteParam_ne _ _ _ h
  · exact valuesFor_setParam_ne _ _ _ _ h

/-- Keys that are not configured parameters keep all their values through the
State Observer's rewriting of the working copy. -/
theorem valuesFor_processParams_not_mem (params : List (String × ParamConfig σ α))
    (state : σ) (l : List (String × String)) (k : String)
    (h : k ∉ paramKeys params) :
    valuesFor (processParams params state l) k = valuesFor l k := by
  unfold processParams
  induction params generalizing l with
  | nil => rfl
  | cons p rest ih =>
    rw [paramKeys_cons, List.mem_cons, not_or] at h
    rw [List.foldl_cons, ih (processStep state l p) h.2]
    exact valuesFor_processStep_ne state l p k h.1

/-- For a configured key the State Observer's fold leaves exactly the values
dictated by the `===`-against-default decision on the freshly selected value
(assuming, as for a JS object, that parameter keys are not duplicated). -/
theorem valuesFor_processParams_mem (params : List (String × ParamConfig σ α))
    (state : σ) (l : List (String × String)) (k : String)
    (pc : ParamConfig σ α)
    (hmem : (k, pc) ∈ params) (hnd : (paramKeys params).Nodup) :
    valuesFor (processParams params state l) k =
      if jsEq (pc.selector state) pc.defaultValue then []
      else [valueToStringD pc (pc.selector state)] := by
  unfold processParams
  induction params generalizing l with
  | nil => simp at hmem
  | cons p rest ih =>
    rw [paramKeys_cons] at hnd
    have hnd1 := List.nodup_cons.mp hnd
    rcases List.mem_cons.mp hmem with h | h
    · rw [List.foldl_cons]
      have hk1 : p.1 = k := by rw [← h]
      have h2 : k ∉ paramKeys rest := by
        rw [← hk1]; exact hnd1.1
      have hstep : List.foldl (processStep state) (processStep state l p) rest
          = processParams rest state (processStep state l p) := rfl
      rw [hstep, valuesFor_processParams_not_mem rest state _ k h2, ← h,
        processStep_mk]
      split
      · exact valuesFor_deleteParam_self _ _
      · exact valuesFor_setParam_self _ _ _
    · rw [List.foldl_cons]
      exact ih (processStep state l p) h hnd1.2

theorem foldl_fixpoint {β γ : Type _} (f : β → γ → β) (M : β) (L : List γ)
    (h : ∀ p ∈ L, f M p = M) : L.foldl f M = M := by
  induction L with
  | nil => rfl
  | cons p rest ih =>
    rw [List.foldl_cons, h p (List.mem_cons_self p rest)]
    exact ih (fun q hq => h q (List.mem_cons_of_mem p hq))

/-- Re-running the fold on its own output changes nothing (the second State
Observer pass computes the same working copy). -/
theorem processParams_idem (params : List (String × ParamConfig σ α))
    (state : σ) (l : List (String × String))
    (hnd : (paramKeys params).Nodup) :
    processParams params state (processParams params state l)
      = processParams params state l := by
  have hfix : ∀ p ∈ params,
      processStep state (processParams params state l) p
        = processParams params state l := by
    intro p hp
    have hv := valuesFor_processParams_mem params state l p.1 p.2 hp hnd
    unfold processStep
    split
    · rename_i hj
      rw [if_pos hj] at hv
      exact deleteParam_of_not_mem _ _ hv
    · rename_i hj
      rw [if_neg hj] at hv
      exact setParam_of_single _ _ _ hv
  exact foldl_fixpoint (processStep state) _ params hfix

/-! ### Behaviour of the handlers under the guard flags -/

theorem handleStateUpdate_guarded (cfg : SyncConfig σ α) (w : World σ)
    (h : w.ignoreStateUpdate = true) : handleStateUpdate cfg w = (w, none) := by
  unfold handleStateUpdate
  rw [if_pos h]

/-- While `ignoreStateUpdate` is held, the dispatch loop can only move the
store state: the location, the navigation log, the cache and both guards are
untouched (every inner `handleStateUpdate` notification returns at once). -/
theorem dispatchAll_guarded (cfg : SyncConfig σ α)
    (reducer : σ → α → Except String σ) (as : List α) (w : World σ)
    (h : w.ignoreStateUpdate = true) :
    (dispatchAll cfg reducer as w).1 =
      { w with storeState := (dispatchAll cfg reducer as w).1.storeState } := by
  induction as generalizing w with
  | nil => rfl
  | cons a rest ih =>
    cases hr : reducer w.storeState a with
    | error e => simp [dispatchAll, hr]
    | ok s1 =>
      have hg := handleStateUpdate_guarded cfg { w with storeState := s1 } h
      simp only [dispatchAll, hr, hg]
      exact ih { w with storeState := s1 } h

theorem handleStateUpdate_some_eq (cfg : SyncConfig σ α) (w : World σ)
    (qv : List (String × JSValue))
    (h1 : w.ignoreStateUpdate = false) (h2 : w.lastQueryValues = some qv) :
    handleStateUpdate cfg w =
      (stateUpdateNav cfg w
        (processParams cfg.params w.storeState (parseSearch w.location.search))
        (some (updateCache cfg.params w.storeState qv)), none) := by
  unfold handleStateUpdate
  rw [h1, h2]
  rfl

theorem stateUpdateNav_no_nav (cfg : SyncConfig σ α) (w : World σ)
    (newPairs : List (String × String))
    (newCache : Option (List (String × JSValue)))
    (h : "?" ++ serializePairs newPairs
        = (if w.location.search = "" then "?" else w.location.search)) :
    stateUpdateNav cfg w newPairs newCache
      = { w with lastQueryValues := newCache } := by
  unfold stateUpdateNav
  rw [if_pos h]

theorem stateUpdateNav_nav (cfg : SyncConfig σ α) (w : World σ)
    (newPairs : List (String × String))
    (newCache : Option (List (String × JSValue)))
    (h : ¬("?" ++ serializePairs newPairs
        = (if w.location.search = "" then "?" else w.location.search))) :
    stateUpdateNav cfg w newPairs newCache
      = { w with
            lastQueryValues := newCache
            ignoreLocationUpdate := false
            location := ⟨"?" ++ serializePairs newPairs⟩
            navigations :=
              w.navigations ++ [(navMode cfg, "?" ++ serializePairs newPairs)] } := by
  unfold stateUpdateNav
  rw [if_neg h]

/-- The world the Location Observer hands to its dispatch loop: the cache has
just been replaced wholesale and the state guard is held. -/
def locObserverInnerWorld (cfg : SyncConfig σ α) (w : World σ) : World σ :=
  { w with
      lastQueryValues := some (getQueryValues cfg.params w.location)
      ignoreStateUpdate := true }

/-- The action list the Location Observer dispatches, as computed from the
world it observes. -/
def locObserverActions (cfg : SyncConfig σ α) (w : World σ) : List α :=
  computeActions cfg.params w.storeState (getQueryValues cfg.params w.location)
    w.lastQueryValues

theorem handleLocationUpdate_not_guarded (cfg : SyncConfig σ α)
    (reducer : σ → α → Except String σ) (w : World σ)
    (h : w.ignoreLocationUpdate = false) :
    handleLocationUpdate cfg reducer w =
      (match (dispatchAll cfg reducer (locObserverActions cfg w)
          (locObserverInnerWorld cfg w)).2 with
       | some e =>
         ((dispatchAll cfg reducer (locObserverActions cfg w)
            (locObserverInnerWorld cfg w)).1, some e)
       | none =>
         ({ (dispatchAll cfg reducer (locObserverActions cfg w)
            (locObserverInnerWorld cfg w)).1 with ignoreStateUpdate := false },
          none)) := by
  unfold handleLocationUpdate
  rw [if_neg (by simp [h])]
  rfl

/-- The Location Observer never moves the location and never navigates: the
dispatches it performs run with `ignoreStateUpdate` held, so the inner
subscriber notifications are no-ops, and the handler itself has no
navigation call. -/
theorem handleLocationUpdate_fields (cfg : SyncConfig σ α)
    (reducer : σ → α → Except String σ) (w : World σ) :
    (handleLocationUpdate cfg reducer w).1.location = w.location ∧
    (handleLocationUpdate cfg reducer w).1.navigations = w.navigations ∧
    (handleLocationUpdate cfg reducer w).1.ignoreLocationUpdate
      = w.ignoreLocationUpdate := by
  by_cases hg : w.ignoreLocationUpdate = true
  · simp [handleLocationUpdate, hg]
  · have hg2 : w.ignoreLocationUpdate = false := by simpa using hg
    rw [handleLocationUpdate_not_guarded cfg reducer w hg2]
    have hda := dispatchAll_guarded cfg reducer (locObserverActions cfg w)
      (locObserverInnerWorld cfg w) rfl
    have hloc : (dispatchAll cfg reducer (locObserverActions cfg w)
        (locObserverInnerWorld cfg w)).1.location = w.location := by
      rw [hda]; rfl
    have hnav : (dispatchAll cfg reducer (locObserverActions cfg w)
        (locObserverInnerWorld cfg w)).1.navigations = w.navigations := by
      rw [hda]; rfl
    have hig : (dispatchAll cfg reducer (locObserverActions cfg w)
        (locObserverInnerWorld cfg w)).1.ignoreLocationUpdate
          = w.ignoreLocationUpdate := by
      rw [hda]; rfl
    cases hS : (dispatchAll cfg reducer (locObserverActions cfg w)
        (locObserverInnerWorld cfg w)).2 with
    | none => exact ⟨hloc, hnav, hig⟩
    | some e => exact ⟨hloc, hnav, hig⟩

/-! ### Preservation and no-dispatch helper lemmas -/

theorem stateUpdateNav_search_valuesFor (cfg : SyncConfig σ α) (w : World σ)
    (newPairs : List (String × String))
    (newCache : Option (List (String × JSValue))) (k : String)
    (h : valuesFor newPairs k = valuesFor (parseSearch w.location.search) k) :
    valuesFor (parseSearch (stateUpdateNav cfg w newPairs newCache).location.search) k
      = valuesFor (parseSearch w.location.search) k := by
  by_cases hc : "?" ++ serializePairs newPairs
      = (if w.location.search = "" then "?" else w.location.search)
  · rw [stateUpdateNav_no_nav cfg w newPairs newCache hc]
  · rw [stateUpdateNav_nav cfg w newPairs newCache hc]
    show valuesFor (parseSearch ("?" ++ serializePairs newPairs)) k = _
    rw [parseSearch_roundtrip, h]

/-- One State Observer invocation never adds, changes or removes the values of
a key that is not a configured parameter. -/
theorem handleStateUpdate_other_keys (cfg : SyncConfig σ α) (w : World σ)
    (k : String) (hk : k ∉ paramKeys cfg.params) :
    valuesFor (parseSearch (handleStateUpdate cfg w).1.location.search) k
      = valuesFor (parseSearch w.location.search) k := by
  by_cases hg : w.ignoreStateUpdate = true
  · rw [handleStateUpdate_guarded cfg w hg]
  · have hg2 : w.ignoreStateUpdate = false := by simpa using hg
    cases hq : w.lastQueryValues with
    | none =>
      cases hp : cfg.params with
      | nil =>
        have he : handleStateUpdate cfg w
            = (stateUpdateNav cfg w (parseSearch w.location.search) none, none) := by
          unfold handleStateUpdate
          rw [hg2, hq, hp]
          rfl
        rw [he]
        exact stateUpdateNav_search_valuesFor cfg w _ none k rfl
      | cons p rest =>
        have he : handleStateUpdate cfg w
            = (w, some "TypeError: lastQueryValues is undefined") := by
          unfold handleStateUpdate
          rw [hg2, hq, hp]
          rfl
        rw [he]
    | some qv =>
      rw [handleStateUpdate_some_eq cfg w qv hg2 hq]
      exact stateUpdateNav_search_valuesFor cfg w _ _ k
        (valuesFor_processParams_not_mem cfg.params w.storeState _ k hk)

theorem computeActions_eq_nil (params : List (String × ParamConfig σ α))
    (state : σ) (queryValues : List (String × JSValue))
    (lastQV : Option (List (String × JSValue)))
    (h : ∀ p ∈ params, jsEq (p.2.selector state) (getAssoc queryValues p.1) = true) :
    computeActions params state queryValues lastQV = [] := by
  unfold computeActions
  refine foldl_fixpoint _ _ _ (fun p hp => ?_)
  have hj := h p hp
  unfold locActionStep
  split
  · rw [hj]
    simp
  · rfl

/-! ### Cache initialisation helpers -/

theorem stateUpdateNav_cache (cfg : SyncConfig σ α) (w : World σ)
    (newPairs : List (String × String))
    (newCache : Option (List (String × JSValue))) :
    (stateUpdateNav cfg w newPairs newCache).lastQueryValues = newCache := by
  by_cases hc : "?" ++ serializePairs newPairs
      = (if w.location.search = "" then "?" else w.location.search)
  · rw [stateUpdateNav_no_nav cfg w newPairs newCache hc]
  · rw [stateUpdateNav_nav cfg w newPairs newCache hc]

/-- A State Observer run leaves the cache defined exactly when it was defined
before the run. -/
theorem handleStateUpdate_cache_isSome (cfg : SyncConfig σ α) (w : World σ) :
    (handleStateUpdate cfg w).1.lastQueryValues.isSome
      = w.lastQueryValues.isSome := by
  by_cases hg : w.ignoreStateUpdate = true
  · rw [handleStateUpdate_guarded cfg w hg]
  · have hg2 : w.ignoreStateUpdate = false := by simpa using hg
    cases hq : w.lastQueryValues with
    | none =>
      cases hp : cfg.params with
      | nil =>
        have he : handleStateUpdate cfg w
            = (stateUpdateNav cfg w (parseSearch w.location.search) none, none) := by
          unfold handleStateUpdate
          rw [hg2, hq, hp]
          rfl
        rw [he]
        simp [stateUpdateNav_cache]
      | cons p rest =>
        have he : handleStateUpdate cfg w
            = (w, some "TypeError: lastQueryValues is undefined") := by
          unfold handleStateUpdate
          rw [hg2, hq, hp]
          rfl
        rw [he, hq]
    | some qv =>
      rw [handleStateUpdate_some_eq cfg w qv hg2 hq]
      simp [stateUpdateNav_cache, hq]

/-- An unguarded Location Observer run always leaves the cache defined (it is
replaced wholesale before the dispatch loop, also on an exceptional exit). -/
theorem handleLocationUpdate_cache_isSome (cfg : SyncConfig σ α)
    (reducer : σ → α → Except String σ) (w : World σ)
    (h : w.ignoreLocationUpdate = false) :
    (handleLocationUpdate cfg reducer w).1.lastQueryValues.isSome = true := by
  rw [handleLocationUpdate_not_guarded cfg reducer w h]
  have hda := dispatchAll_guarded cfg reducer (locObserverActions cfg w)
    (locObserverInnerWorld cfg w) rfl
  have hc : (dispatchAll cfg reducer (locObserverActions cfg w)
      (locObserverInnerWorld cfg w)).1.lastQueryValues
        = some (getQueryValues cfg.params w.location) := by
    rw [hda]; rfl
  cases hS : (dispatchAll cfg reducer (locObserverActions cfg w)
      (locObserverInnerWorld cfg w)).2 with
  | none => simp [hc]
  | some e => simp [hc]

/-! ### Sequences of engine reactions -/

/-- One engine reaction: either the store notified the State Observer after an
external state change, or the navigation provider notified the Location
Observer. -/
inductive SyncStep (σ : Type) where
  | stateChanged (s1 : σ)
  | locationNotified

def runSyncStep (cfg : SyncConfig σ α) (reducer : σ → α → Except String σ) :
    SyncStep σ → World σ → World σ
  | .stateChanged s1, w => (handleStateUpdate cfg { w with storeState := s1 }).1
  | .locationNotified, w => (handleLocationUpdate cfg reducer w).1

def runSyncs (cfg : SyncConfig σ α) (reducer : σ → α → Except String σ)
    (steps : List (SyncStep σ)) (w : World σ) : World σ :=
  steps.foldl (fun w s => runSyncStep cfg reducer s w) w

/-! ### Spec-modelled definitions for features documented but not implemented
in `src/redux-query-sync.js` -/

/-- Modelled from the spec: multi-valued parameters (the README documents
`multiple` together with the whole-array codecs `valueToArray`/`arrayToValue`,
but their implementation is not part of `src/redux-query-sync.js`).  Spec
§4.1: apply `decode` to each of the list of strings, then apply `arrayDecode`
(identity if unset) to the resulting list. -/
def decodeParamMultiple (decode : String → JSValue)
    (arrayDecode : Option (List JSValue → JSValue)) (raws : List String) :
    JSValue :=
  match arrayDecode with
  | some f => f (raws.map decode)
  | none => .arr (raws.map decode)

/-- Modelled from the spec: the raw strings of a multi-valued key are all the
values listed for that key in the location's query string. -/
def decodeLocationMultiple (loc : Location) (key : String)
    (decode : String → JSValue)
    (arrayDecode : Option (List JSValue → JSValue)) : JSValue :=
  decodeParamMultiple decode arrayDecode (valuesFor (parseSearch loc.search) key)

/-- Modelled from the spec: encoding a multi-valued parameter applies
`arrayEncode` (identity if unset, in which case the native value is the array
itself) and then the per-element `encode`. -/
def encodeParamMultiple (encode : JSValue → String)
    (arrayEncode : Option (JSValue → List JSValue)) (v : JSValue) :
    List String :=
  (match arrayEncode with
   | some f => f v
   | none => match v with | .arr xs => xs | x => [x]).map encode

/-- Modelled from the spec: a multi-valued key is written into the query
parameters by repeating the key once per element. -/
def setParamAll (l : List (String × String)) (k : String) (vs : List String) :
    List (String × String) :=
  deleteParam l k ++ vs.map (fun v => (k, v))

/-- Modelled from the spec: the `history` construction option is documented in
the repository README but `src/redux-query-sync.js` does not read it; per spec
§6 the engine uses a supplied navigation provider for reading the location,
listening and navigating, and creates its own default provider only when the
option is omitted. -/
def resolveHistoryProvider {H : Type} (supplied : Option H)
    (createDefault : Unit → H) : H :=
  match supplied with
  | some h => h
  | none => createDefault ()

/-! ### Concrete configurations used in counterexamples and witnesses -/

def digitsToNat : List Char → Nat → Nat
  | [], acc => acc
  | c :: rest, acc => digitsToNat rest (acc * 10 + (c.toNat - 48))

/-- A small decimal parser standing in for the `stringToValue` of the examples
(`Number.parseInt` on plain digit strings). -/
def parseIntSimple (s : String) : Int :=
  Int.ofNat (digitsToNat s.toList 0)

/-- The page-number parameter of the README's full example, whose reducer
clamps incoming values (used to probe the missing normalization pass). -/
def clampPc : ParamConfig Int Int :=
  { selector := fun s => .num s
    action := fun v => match v with | .num n => n | _ => 0
    defaultValue := .num 1
    stringToValue := some (fun s => .num (parseIntSimple s)) }

def clampCfg : SyncConfig Int Int := { params := [("p", clampPc)] }

/-- A reducer that clamps the page number to at most 10. -/
def clampReducer : Int → Int → Except String Int :=
  fun _ a => .ok (min a 10)

/-- A reducer whose dispatch raises. -/
def boomReducer : Int → Int → Except String Int :=
  fun _ _ => .error "boom"

def clampWorld : World Int :=
  { storeState := 1
    location := ⟨"?p=99"⟩
    ignoreLocationUpdate := false
    ignoreStateUpdate := false
    lastQueryValues := some [("p", .num 1)]
    navigations := [] }

/-- A parameter whose `defaultValue` is the string "1" while the state holds
the number 1: the two encode identically but are not `===`. -/
def strDefaultPc : ParamConfig Int Unit :=
  { selector := fun _ => .num 1
    action := fun _ => ()
    defaultValue := .str "1" }

def strDefaultCfg : SyncConfig Int Unit := { params := [("p", strDefaultPc)] }

def strDefaultWorld : World Int :=
  { storeState := 0
    location := ⟨""⟩
    ignoreLocationUpdate := false
    ignoreStateUpdate := false
    lastQueryValues := some []
    navigations := [] }

/-! ### Claim theorems -/

/-- C1 (counterexample): with the README's clamping page parameter, state 1
and an incoming location `?p=99`, the Location Observer dispatches and the
reducer clamps the state to 10, yet the handler returns with the query string
still `?p=99` and an empty navigation log — no State Observer re-run and no
"replace" navigation happens, so the query string does not reflect the
post-dispatch state. -/
theorem c1_counterexample :
    (handleLocationUpdate clampCfg clampReducer clampWorld).1.storeState = 10 ∧
    (handleLocationUpdate clampCfg clampReducer clampWorld).1.location.search
      = "?p=99" ∧
    (handleLocationUpdate clampCfg clampReducer clampWorld).1.navigations = [] ∧
    "?p=" ++ valueToStringD clampPc
      (clampPc.selector
        (handleLocationUpdate clampCfg clampReducer clampWorld).1.storeState)
      = "?p=10" := by
  refine ⟨by decide, by decide, by decide, by decide⟩

/-- C1 (amended): after a location change is handled, the queued actions are
dispatched under the `ignoreStateUpdate` guard and control returns without
re-running the State Observer: `handleLocationUpdate` never changes the
location and never pushes or replaces a navigation entry, so the query string
keeps the raw incoming value until the next unguarded state change. -/
theorem c1_no_normalization_after_dispatch (cfg : SyncConfig σ α)
    (reducer : σ → α → Except String σ) (w : World σ) :
    (handleLocationUpdate cfg reducer w).1.location = w.location ∧
    (handleLocationUpdate cfg reducer w).1.navigations = w.navigations :=
  ⟨(handleLocationUpdate_fields cfg reducer w).1,
   (handleLocationUpdate_fields cfg reducer w).2.1⟩

/-- C2: for a `multiple` parameter, decoding a location applies the
per-element decode to every string listed for the key and then `arrayDecode`
(identity — the plain list — if unset); conversely the array value `[1,2,3]`
serialises to a query string with the key repeated per element,
`selection=1&selection=2&selection=3`. -/
theorem c2_multiple_codec :
    (∀ decode : String → JSValue,
      decodeLocationMultiple ⟨"?selection=1&selection=2&selection=3"⟩
          "selection" decode none
        = .arr [decode "1", decode "2", decode "3"]) ∧
    (∀ (decode : String → JSValue) (f : List JSValue → JSValue),
      decodeLocationMultiple ⟨"?selection=1&selection=2&selection=3"⟩
          "selection" decode (some f)
        = f [decode "1", decode "2", decode "3"]) ∧
    serializePairs (setParamAll [] "selection"
        (encodeParamMultiple jsToString none (.arr [.num 1, .num 2, .num 3])))
      = "selection=1&selection=2&selection=3" := by
  have hv : valuesFor
      (parseSearch "?selection=1&selection=2&selection=3") "selection"
        = ["1", "2", "3"] := rfl
  refine ⟨fun decode => ?_, fun decode f => ?_, by decide⟩
  · show decodeParamMultiple decode none
      (valuesFor (parseSearch "?selection=1&selection=2&selection=3")
        "selection") = _
    rw [hv]
    rfl
  · show decodeParamMultiple decode (some f)
      (valuesFor (parseSearch "?selection=1&selection=2&selection=3")
        "selection") = _
    rw [hv]
    rfl

/-- C3 (counterexample): with `defaultValue` the string "1" and a state value
that is the number 1, both encode to the string "1"; under the claimed
encoded-form comparison the parameter would be omitted, but the State
Observer includes it (`?p=1`) and navigates, because the source compares the
native values with `===`. -/
theorem c3_counterexample :
    jsToString (JSValue.num 1) = jsToString (JSValue.str "1") ∧
    (handleStateUpdate strDefaultCfg strDefaultWorld).1.location.search
      = "?p=1" ∧
    (handleStateUpdate strDefaultCfg strDefaultWorld).1.navigations ≠ [] := by
  refine ⟨by decide, by decide, by decide⟩

/-- C3 (amended): the "equals default" decision of the State Observer is made
by `===` on the native values (`value === defaultValue`), not on the encoded
string forms: a configured key survives in the working query parameters with
exactly its encoded value unless the natively selected value is `===` the
default, in which case it is deleted. -/
theorem c3_native_default_check (params : List (String × ParamConfig σ α))
    (state : σ) (l : List (String × String)) (k : String)
    (pc : ParamConfig σ α)
    (hmem : (k, pc) ∈ params) (hnd : (paramKeys params).Nodup) :
    valuesFor (processParams params state l) k =
      if jsEq (pc.selector state) pc.defaultValue then []
      else [valueToStringD pc (pc.selector state)] :=
  valuesFor_processParams_mem params state l k pc hmem hnd

theorem c3_native_default_check_witness :
    valuesFor (processParams [("p", strDefaultPc)] 0 []) "p" =
      if jsEq (strDefaultPc.selector 0) strDefaultPc.defaultValue then []
      else [valueToStringD strDefaultPc (strDefaultPc.selector 0)] :=
  c3_native_default_check [("p", strDefaultPc)] 0 [] "p" strDefaultPc
    (List.mem_singleton.mpr rfl) (by decide)

/-- C8: the engine uses an externally supplied navigation provider whenever
one is given in the construction options, and only creates its own default
provider when the option is omitted. -/
theorem c8_history_option {H : Type} (h : H) (createDefault : Unit → H) :
    resolveHistoryProvider (some h) createDefault = h ∧
    resolveHistoryProvider (none : Option H) createDefault = createDefault () :=
  ⟨rfl, rfl⟩

theorem stateUpdateNav_ignoreLocation (cfg : SyncConfig σ α) (w : World σ)
    (newPairs : List (String × String))
    (newCache : Option (List (String × JSValue)))
    (h : w.ignoreLocationUpdate = false) :
    (stateUpdateNav cfg w newPairs newCache).ignoreLocationUpdate = false := by
  by_cases hc : "?" ++ serializePairs newPairs
      = (if w.location.search = "" then "?" else w.location.search)
  · rw [stateUpdateNav_no_nav cfg w newPairs newCache hc]
    exact h
  · rw [stateUpdateNav_nav cfg w newPairs newCache hc]

/-- The State Observer always leaves `ignoreLocationUpdate` clear when it was
clear on entry: either it does not navigate (flag untouched) or the guarded
navigation ends with the flag reset. -/
theorem handleStateUpdate_ignoreLocation (cfg : SyncConfig σ α) (w : World σ)
    (h : w.ignoreLocationUpdate = false) :
    (handleStateUpdate cfg w).1.ignoreLocationUpdate = false := by
  by_cases hg : w.ignoreStateUpdate = true
  · rw [handleStateUpdate_guarded cfg w hg]
    exact h
  · have hg2 : w.ignoreStateUpdate = false := by simpa using hg
    cases hq : w.lastQueryValues with
    | none =>
      cases hp : cfg.params with
      | nil =>
        have he : handleStateUpdate cfg w
            = (stateUpdateNav cfg w (parseSearch w.location.search) none, none) := by
          unfold handleStateUpdate
          rw [hg2, hq, hp]
          rfl
        rw [he]
        exact stateUpdateNav_ignoreLocation cfg w _ none h
      | cons p rest =>
        have he : handleStateUpdate cfg w
            = (w, some "TypeError: lastQueryValues is undefined") := by
          unfold handleStateUpdate
          rw [hg2, hq, hp]
          rfl
        rw [he]
        exact h
    | some qv =>
      rw [handleStateUpdate_some_eq cfg w qv hg2 hq]
      exact stateUpdateNav_ignoreLocation cfg w _ _ h

/-- A key whose decoded query value is `===` the selector's current value
contributes no action: the dispatch list equals the one built from only the
parameters whose selector value differs from the decoded one. -/
theorem computeActions_skips_equal (params : List (String × ParamConfig σ α))
    (state : σ) (qv : List (String × JSValue))
    (lqv : Option (List (String × JSValue))) :
    computeActions params state qv lqv
      = computeActions (params.filter
          (fun p => !(jsEq (p.2.selector state) (getAssoc qv p.1))))
          state qv lqv := by
  unfold computeActions
  suffices h : ∀ acc : List α,
      params.foldl (locActionStep state lqv qv) acc
        = (params.filter
            (fun p => !(jsEq (p.2.selector state) (getAssoc qv p.1)))).foldl
            (locActionStep state lqv qv) acc from h []
  induction params with
  | nil => intro acc; rfl
  | cons p rest ih =>
    intro acc
    by_cases hj : jsEq (p.2.selector state) (getAssoc qv p.1) = true
    · have hstep : locActionStep state lqv qv acc p = acc := by
        unfold locActionStep
        split
        · rw [hj]; simp
        · rfl
      rw [List.foldl_cons, hstep, List.filter_cons_of_neg (by simp [hj]),
        ih acc]
    · have hj2 : jsEq (p.2.selector state) (getAssoc qv p.1) = false := by
        simpa using hj
      rw [List.filter_cons_of_pos (by simp [hj2]), List.foldl_cons,
        List.foldl_cons, ih (locActionStep state lqv qv acc p)]

/-- C5: a configured key whose decoded query value is `===` the value the
selector already returns contributes no action to the dispatch list; in
particular, when this holds for every configured key — a location change to
values the state already holds — the Location Observer queues no action,
leaves the store state untouched and finishes without error. -/
theorem c5_no_redundant_dispatch (cfg : SyncConfig σ α)
    (reducer : σ → α → Except String σ) (w : World σ) :
    (computeActions cfg.params w.storeState
        (getQueryValues cfg.params w.location) w.lastQueryValues
      = computeActions (cfg.params.filter
          (fun p => !(jsEq (p.2.selector w.storeState)
            (getAssoc (getQueryValues cfg.params w.location) p.1))))
          w.storeState (getQueryValues cfg.params w.location)
          w.lastQueryValues) ∧
    (w.ignoreLocationUpdate = false →
     (∀ p ∈ cfg.params,
        jsEq (p.2.selector w.storeState)
          (getAssoc (getQueryValues cfg.params w.location) p.1) = true) →
      computeActions cfg.params w.storeState
          (getQueryValues cfg.params w.location) w.lastQueryValues = [] ∧
      (handleLocationUpdate cfg reducer w).1.storeState = w.storeState ∧
      (handleLocationUpdate cfg reducer w).2 = none) := by
  refine ⟨computeActions_skips_equal cfg.params w.storeState _ _,
    fun hg h => ?_⟩
  have hnil := computeActions_eq_nil cfg.params w.storeState
    (getQueryValues cfg.params w.location) w.lastQueryValues h
  have ha : locObserverActions cfg w = ([] : List α) := hnil
  refine ⟨hnil, ?_, ?_⟩
  · rw [handleLocationUpdate_not_guarded cfg reducer w hg, ha]
    rfl
  · rw [handleLocationUpdate_not_guarded cfg reducer w hg, ha]
    rfl

def noopWorld : World Int :=
  { storeState := 99
    location := ⟨"?p=99"⟩
    ignoreLocationUpdate := false
    ignoreStateUpdate := false
    lastQueryValues := none
    navigations := [] }

theorem c5_no_redundant_dispatch_witness :
    computeActions clampCfg.params noopWorld.storeState
        (getQueryValues clampCfg.params noopWorld.location)
        noopWorld.lastQueryValues = [] ∧
    (handleLocationUpdate clampCfg clampReducer noopWorld).1.storeState
      = noopWorld.storeState ∧
    (handleLocationUpdate clampCfg clampReducer noopWorld).2 = none :=
  (c5_no_redundant_dispatch clampCfg clampReducer noopWorld).2 rfl (by decide)

/-- C7 (counterexample): a dispatched action that raises propagates out of
`handleLocationUpdate` with `ignoreStateUpdate` still set — the guard is not
cleared on the exceptional exit path, so it stays stuck. -/
theorem c7_counterexample :
    (handleLocationUpdate clampCfg boomReducer clampWorld).1.ignoreStateUpdate
      = true ∧
    (handleLocationUpdate clampCfg boomReducer clampWorld).2 = some "boom" := by
  refine ⟨by decide, by decide⟩

/-- C7 (amended): starting with both guards clear, an error-free
`handleLocationUpdate` ends with both guards clear, while a run whose
dispatch raises ends with `ignoreStateUpdate` stuck at true; the State
Observer's guard pairing (around a navigation call that cannot raise in this
model) always ends with `ignoreLocationUpdate` clear. -/
theorem c7_guard_clearing (cfg : SyncConfig σ α)
    (reducer : σ → α → Except String σ) (w : World σ)
    (hgl : w.ignoreLocationUpdate = false)
    (hgs : w.ignoreStateUpdate = false) :
    ((handleLocationUpdate cfg reducer w).2 = none →
      (handleLocationUpdate cfg reducer w).1.ignoreStateUpdate = false ∧
      (handleLocationUpdate cfg reducer w).1.ignoreLocationUpdate = false) ∧
    ((handleLocationUpdate cfg reducer w).2 ≠ none →
      (handleLocationUpdate cfg reducer w).1.ignoreStateUpdate = true) ∧
    (handleStateUpdate cfg w).1.ignoreLocationUpdate = false := by
  refine ⟨?_, ?_, handleStateUpdate_ignoreLocation cfg w hgl⟩ <;>
    rw [handleLocationUpdate_not_guarded cfg reducer w hgl] <;>
    have hda := dispatchAll_guarded cfg reducer (locObserverActions cfg w)
      (locObserverInnerWorld cfg w) rfl
  · have hil : (dispatchAll cfg reducer (locObserverActions cfg w)
        (locObserverInnerWorld cfg w)).1.ignoreLocationUpdate
          = w.ignoreLocationUpdate := by
      rw [hda]; rfl
    cases hS : (dispatchAll cfg reducer (locObserverActions cfg w)
        (locObserverInnerWorld cfg w)).2 with
    | none => exact fun _ => ⟨rfl, hil.trans hgl⟩
    | some e => exact fun hcon => absurd hcon (by simp)
  · have hig : (dispatchAll cfg reducer (locObserverActions cfg w)
        (locObserverInnerWorld cfg w)).1.ignoreStateUpdate = true := by
      rw [hda]; rfl
    cases hS : (dispatchAll cfg reducer (locObserverActions cfg w)
        (locObserverInnerWorld cfg w)).2 with
    | none => exact fun hcon => absurd rfl hcon
    | some e => exact fun _ => hig

theorem c7_guard_clearing_witness :
    ((handleLocationUpdate clampCfg clampReducer clampWorld).2 = none →
      (handleLocationUpdate clampCfg clampReducer clampWorld).1.ignoreStateUpdate
        = false ∧
      (handleLocationUpdate clampCfg clampReducer
        clampWorld).1.ignoreLocationUpdate = false) ∧
    ((handleLocationUpdate clampCfg clampReducer clampWorld).2 ≠ none →
      (handleLocationUpdate clampCfg clampReducer clampWorld).1.ignoreStateUpdate
        = true) ∧
    (handleStateUpdate clampCfg clampWorld).1.ignoreLocationUpdate = false :=
  c7_guard_clearing clampCfg clampReducer clampWorld rfl rfl

/-- A parameter whose state value is `===` its default, so it encodes to
absent. -/
def absentPc : ParamConfig Int Unit :=
  { selector := fun _ => .num 1
    action := fun _ => ()
    defaultValue := .num 1 }

def absentCfg : SyncConfig Int Unit := { params := [("p", absentPc)] }

def emptySearchWorld : World Int :=
  { storeState := 0
    location := ⟨""⟩
    ignoreLocationUpdate := false
    ignoreStateUpdate := false
    lastQueryValues := some []
    navigations := [] }

/-- C10: the comparison uses `location.search || '?'`, so an empty search
string equals the lone `?` obtained by serialising an empty parameter set:
when the search is empty (hence no unrelated keys) and every configured
parameter's value is `===` its default (encodes to absent), the State
Observer performs no navigation. -/
theorem c10_empty_search_no_nav (cfg : SyncConfig σ α) (w : World σ)
    (qv : List (String × JSValue))
    (hs : w.location.search = "")
    (hg : w.ignoreStateUpdate = false)
    (hq : w.lastQueryValues = some qv)
    (hall : ∀ p ∈ cfg.params,
      jsEq (p.2.selector w.storeState) p.2.defaultValue = true) :
    (handleStateUpdate cfg w).1.location = w.location ∧
    (handleStateUpdate cfg w).1.navigations = w.navigations := by
  rw [handleStateUpdate_some_eq cfg w qv hg hq]
  have hpp : processParams cfg.params w.storeState
      (parseSearch w.location.search) = [] := by
    rw [hs]
    show processParams cfg.params w.storeState [] = []
    refine foldl_fixpoint _ _ _ (fun p hp => ?_)
    unfold processStep
    rw [if_pos (hall p hp)]
    rfl
  have hcond : "?" ++ serializePairs ([] : List (String × String))
      = (if w.location.search = "" then "?" else w.location.search) := by
    rw [hs]
    rfl
  rw [hpp, stateUpdateNav_no_nav cfg w [] _ hcond]
  exact ⟨rfl, rfl⟩

theorem c10_empty_search_no_nav_witness :
    (handleStateUpdate absentCfg emptySearchWorld).1.location
      = emptySearchWorld.location ∧
    (handleStateUpdate absentCfg emptySearchWorld).1.navigations
      = emptySearchWorld.navigations :=
  c10_empty_search_no_nav absentCfg emptySearchWorld [] rfl rfl rfl (by decide)

theorem qmark_append_ne_empty (s : String) : ("?" ++ s) ≠ "" := by
  intro h
  have h2 := congrArg String.toList h
  rw [string_toList_append] at h2
  exact List.cons_ne_nil '?' s.toList h2

/-- When the newly built query string already equals `location.search || '?'`,
a State Observer run moves neither the location nor the navigation log. -/
theorem handleStateUpdate_no_nav_of_cond (cfg : SyncConfig σ α) (w : World σ)
    (qv : List (String × JSValue))
    (hg : w.ignoreStateUpdate = false) (hq : w.lastQueryValues = some qv)
    (hc : "?" ++ serializePairs (processParams cfg.params w.storeState
        (parseSearch w.location.search))
      = (if w.location.search = "" then "?" else w.location.search)) :
    (handleStateUpdate cfg w).1.location = w.location ∧
    (handleStateUpdate cfg w).1.navigations = w.navigations := by
  rw [handleStateUpdate_some_eq cfg w qv hg hq,
    stateUpdateNav_no_nav cfg w _ _ hc]
  exact ⟨rfl, rfl⟩

/-- C6: running the State Observer twice in a row with no intervening state
change is idempotent — whether or not the first run navigated, the second run
builds the same query string it finds in the location, so it performs no push
or replace call (assuming, as for a JS object, parameter keys are unique and
the cache is initialised). -/
theorem c6_state_observer_idempotent (cfg : SyncConfig σ α) (w : World σ)
    (qv : List (String × JSValue))
    (hg : w.ignoreStateUpdate = false)
    (hq : w.lastQueryValues = some qv)
    (hnd : (paramKeys cfg.params).Nodup) :
    (handleStateUpdate cfg (handleStateUpdate cfg w).1).1.location
        = (handleStateUpdate cfg w).1.location ∧
    (handleStateUpdate cfg (handleStateUpdate cfg w).1).1.navigations
        = (handleStateUpdate cfg w).1.navigations := by
  rw [handleStateUpdate_some_eq cfg w qv hg hq]
  by_cases hc : "?" ++ serializePairs (processParams cfg.params w.storeState
      (parseSearch w.location.search))
      = (if w.location.search = "" then "?" else w.location.search)
  · rw [stateUpdateNav_no_nav cfg w _ _ hc]
    exact handleStateUpdate_no_nav_of_cond cfg _
      (updateCache cfg.params w.storeState qv) hg rfl hc
  · rw [stateUpdateNav_nav cfg w _ _ hc]
    refine handleStateUpdate_no_nav_of_cond cfg _
      (updateCache cfg.params w.storeState qv) hg rfl ?_
    show "?" ++ serializePairs (processParams cfg.params w.storeState
        (parseSearch ("?" ++ serializePairs (processParams cfg.params
          w.storeState (parseSearch w.location.search)))))
      = (if ("?" ++ serializePairs (processParams cfg.params w.storeState
            (parseSearch w.location.search))) = ""
         then "?"
         else ("?" ++ serializePairs (processParams cfg.params w.storeState
            (parseSearch w.location.search))))
    rw [parseSearch_roundtrip, processParams_idem cfg.params w.storeState _ hnd,
      if_neg (qmark_append_ne_empty _)]

theorem c6_state_observer_idempotent_witness :
    (handleStateUpdate strDefaultCfg
        (handleStateUpdate strDefaultCfg strDefaultWorld).1).1.location
      = (handleStateUpdate strDefaultCfg strDefaultWorld).1.location ∧
    (handleStateUpdate strDefaultCfg
        (handleStateUpdate strDefaultCfg strDefaultWorld).1).1.navigations
      = (handleStateUpdate strDefaultCfg strDefaultWorld).1.navigations :=
  c6_state_observer_idempotent strDefaultCfg strDefaultWorld [] rfl rfl
    (by decide)

/-- C4: over any sequence of engine reactions in either direction (state
changes handled by the State Observer, location notifications handled by the
Location Observer), a query-string key that is not a configured parameter is
never added, changed or removed: it keeps exactly the values it had before. -/
theorem c4_unrelated_keys_preserved (cfg : SyncConfig σ α)
    (reducer : σ → α → Except String σ) (steps : List (SyncStep σ))
    (w : World σ) (k : String) (hk : k ∉ paramKeys cfg.params) :
    valuesFor (parseSearch (runSyncs cfg reducer steps w).location.search) k
      = valuesFor (parseSearch w.location.search) k := by
  induction steps generalizing w with
  | nil => rfl
  | cons s rest ih =>
    have h1 : runSyncs cfg reducer (s :: rest) w
        = runSyncs cfg reducer rest (runSyncStep cfg reducer s w) := rfl
    rw [h1, ih (runSyncStep cfg reducer s w)]
    cases s with
    | stateChanged s1 =>
      exact handleStateUpdate_other_keys cfg { w with storeState := s1 } k hk
    | locationNotified =>
      show valuesFor
        (parseSearch (handleLocationUpdate cfg reducer w).1.location.search) k
          = valuesFor (parseSearch w.location.search) k
      rw [(handleLocationUpdate_fields cfg reducer w).1]

def noopIntUnitReducer : Int → Unit → Except String Int :=
  fun s _ => .ok s

def keepWorld : World Int :=
  { storeState := 5
    location := ⟨"?p=5&other=keep"⟩
    ignoreLocationUpdate := false
    ignoreStateUpdate := false
    lastQueryValues := some [("p", .num 5)]
    navigations := [] }

theorem c4_unrelated_keys_preserved_witness :
    valuesFor (parseSearch (runSyncs strDefaultCfg noopIntUnitReducer
        [SyncStep.stateChanged 1, SyncStep.locationNotified]
        keepWorld).location.search) "other"
      = valuesFor (parseSearch keepWorld.location.search) "other" :=
  c4_unrelated_keys_preserved strDefaultCfg noopIntUnitReducer
    [SyncStep.stateChanged 1, SyncStep.locationNotified] keepWorld "other"
    (by decide)

/-- C9: however `initialTruth` is configured (`location`, `store`, or unset),
construction leaves the `lastQueryValues` cache defined — by the initial
Location Observer pass (which replaces it before dispatching, even if a
dispatch raises) or by the explicit baseline read — so every later State
Observer run writes its per-key updates into a defined cache. -/
theorem c9_cache_initialized (cfg : SyncConfig σ α)
    (reducer : σ → α → Except String σ) (s0 : σ) (loc : Location) :
    (reduxQuerySyncInit cfg reducer s0 loc).1.lastQueryValues.isSome = true := by
  by_cases hL : cfg.initialTruth = some InitialTruth.location
  · have hNS : ¬(cfg.initialTruth = some InitialTruth.store) := by
      rw [hL]; decide
    simp only [reduxQuerySyncInit]
    rw [if_pos hL, if_neg hNS]
    cases hE : (handleLocationUpdate cfg reducer
        { storeState := s0, location := loc, ignoreLocationUpdate := false,
          ignoreStateUpdate := false, lastQueryValues := none,
          navigations := [] }).2 with
    | none => exact handleLocationUpdate_cache_isSome cfg reducer _ rfl
    | some e => exact handleLocationUpdate_cache_isSome cfg reducer _ rfl
  · simp only [reduxQuerySyncInit]
    rw [if_neg hL]
    by_cases hS : cfg.initialTruth = some InitialTruth.store
    · rw [if_pos hS]
      show (handleStateUpdate cfg
        { storeState := s0, location := loc, ignoreLocationUpdate := false,
          ignoreStateUpdate := false,
          lastQueryValues := some (getQueryValues cfg.params loc),
          navigations := [] }).1.lastQueryValues.isSome = true
      rw [handleStateUpdate_cache_isSome]
      rfl
    · rw [if_neg hS]
      rfl
